import Mathlib

/-!
Shallow embedding of the grid-reconciliation and save logic of
Steam Art Manager (`src-tauri/src/main.rs`), together with proofs of the
specification's claims about it.

Conventions of the embedding:
* Rust functions that can panic are modelled as `Option`-returning
  functions (`none` = panic).
* `HashMap<String, _>` inputs are modelled as association lists with the
  map's key-uniqueness recorded as a hypothesis where a proof needs it.
* Filesystem activity is modelled by an explicit trace of `FsOp` values
  together with an oracle `fs : FsOp → Option String` that decides the
  outcome of each operation (`none` = success, `some e` = the error
  message `e.to_string()` would carry).
-/

/-- Tests whether the first character list is a leading segment of the
second (character-level model of byte-level `str::starts_with`). -/
def leadSeg : List Char → List Char → Bool
  | [], _ => true
  | _ :: _, [] => false
  | a :: as, b :: bs => a = b && leadSeg as bs

/-- Substring occurrence test (model of Rust `str::contains`; matching on
chars coincides with matching on UTF-8 bytes for UTF-8 self-synchronizing
patterns). -/
def subSeg (pat : List Char) : List Char → Bool
  | [] => pat.isEmpty
  | b :: bs => leadSeg pat (b :: bs) || subSeg pat bs

/-- Rust `str::contains` on strings. -/
def strContains (s pat : String) : Bool := subSeg pat.data s.data

/-- Rust `str::starts_with`. -/
def strStartsWith (s pat : String) : Bool := leadSeg pat.data s.data

/-- Rust `str::ends_with`. -/
def strEndsWith (s pat : String) : Bool := leadSeg pat.data.reverse s.data.reverse

/-- Rust `String::replace("\\", "/")`: pointwise, since the pattern is a
single character. -/
def repSlash (s : String) : String :=
  String.mk (s.data.map fun c => if c = '\\' then '/' else c)

/-- Drops the last `n` characters (model of `&target[..target.len() - n]`;
it is only applied below a check that the last `n` characters are ASCII,
where byte count and char count agree). -/
def dropEnd (s : String) (n : Nat) : String :=
  String.mk ((s.data.reverse.drop n).reverse)

/-- The suffix of the character list starting at the LAST occurrence of
`'.'` — model of `path.rfind(".")` followed by the slice `&path[i..]` in
`adjust_path`; `none` when the path has no `'.'` (where the Rust code
panics through `.expect("Path should have had a file extension.")`). -/
def extFrom : List Char → Option (List Char)
  | [] => none
  | c :: rest =>
    match extFrom rest with
    | some suf => some suf
    | none => if c = '.' then some (c :: rest) else none

/-- Model of `main.rs` `get_grid_filename` (lines 50–62): the grid file name for a
grid type; the `_ => panic!("Unexpected grid type ...")` arm is modelled
as `none`. -/
def get_grid_filename (appid grid_type image_type : String) : Option String :=
  if grid_type = "Capsule" then some (appid ++ "p" ++ image_type)
  else if grid_type = "Wide Capsule" then some (appid ++ image_type)
  else if grid_type = "Hero" then some (appid ++ "_hero" ++ image_type)
  else if grid_type = "Logo" then some (appid ++ "_logo" ++ image_type)
  else if grid_type = "Icon" then some (appid ++ "_icon" ++ image_type)
  else none

/-- Model of `main.rs` `adjust_path` (lines 65–69): take the extension from the
last `'.'` of `path` (panic = `none` when absent) and build the grid file
name. -/
def adjust_path (appid path grid_type : String) : Option String :=
  match extFrom path.data with
  | none => none
  | some suf => get_grid_filename appid grid_type (String.mk suf)

/-- Model of `PathBuf::join` for the shapes that occur here: an absolute second
component replaces the first, otherwise a separator is inserted unless one
is already present.  Separator-character differences between platforms are
irrelevant because the code applies `.replace("\\", "/")` right after the
join, which the embedding mirrors. -/
def pathJoin (dir file : String) : String :=
  if strStartsWith file "/" then file
  else if dir = "" then file
  else if strEndsWith dir "/" then dir ++ file
  else dir ++ "/" ++ file

/-- Model of `type GridImageCache = HashMap<String, HashMap<String, String>>`,
as an association list. -/
abbrev GridImageCache := List (String × List (String × String))

/-- The nested lookup `original_paths.get(appid)?.get(grid_type)?` of
`filter_paths` lines 80–82. -/
def lookup2 (m : GridImageCache) (appid grid_type : String) : Option String :=
  match List.lookup appid m with
  | some gm => List.lookup grid_type gm
  | none => none

/-- Model of `main.rs` `struct ChangedPath` (lines 41–47). -/
structure ChangedPath where
  appId : String
  gridType : String
  oldPath : String
  targetPath : String
  sourcePath : String
deriving DecidableEq, Repr

/-- The `.webp` → `.jpg` targetPath rewrite of `filter_paths`
(lines 105–111). -/
def webpFix (c : ChangedPath) : ChangedPath :=
  if strEndsWith c.targetPath ".webp" then
    { c with targetPath := dropEnd c.targetPath 5 ++ ".jpg" }
  else c

/-- Body of the changed-entry branch of `filter_paths` (lines 87–113):
builds the `ChangedPath` for one changed `(grid_type, source_path)` entry;
`none` models the panic inside `adjust_path`. -/
def mkChangedPath (gridsDir appid grid_type source_path grid_path : String) :
    Option ChangedPath :=
  if source_path ≠ "REMOVE" then
    match adjust_path appid source_path grid_type with
    | none => none
    | some adjusted =>
      let target := repSlash (pathJoin gridsDir (repSlash adjusted))
      some (webpFix ⟨appid, grid_type, repSlash grid_path, target, repSlash source_path⟩)
  else
    some (webpFix ⟨appid, grid_type, repSlash grid_path, "REMOVE", repSlash source_path⟩)

/-- JSON-like values exchanged with the UI layer (model of
`serde_json::Value` restricted to the shapes this code inspects; every
shape it never inspects is `other`). -/
inductive JVal where
  | str (s : String)
  | num (n : Int)
  | obj (fields : List (String × JVal))
  | other

/-- A filesystem side effect performed by `save_changes`. -/
inductive FsOp where
  | removeFile (path : String)
  | createFile (path : String)
  | copyFile (src dst : String)
  | writeShortcuts (data : JVal)

/-- Inner loop of `filter_paths` (lines 77–115) over one app's grid map,
with the (empty) filesystem trace made explicit; the `Option` is `none`
when some processed entry panics. -/
def filterEntries (gridsDir appid : String) (original : GridImageCache) :
    List (String × String) → List FsOp × Option (List ChangedPath)
  | [] => ([], some [])
  | (grid_type, source_path) :: rest =>
    let grid_path := (lookup2 original appid grid_type).getD ""
    if source_path = grid_path then
      filterEntries gridsDir appid original rest
    else
      match mkChangedPath gridsDir appid grid_type source_path grid_path with
      | none => ([], none)
      | some c =>
        let (ops, r) := filterEntries gridsDir appid original rest
        (ops, r.map fun l => c :: l)

/-- Outer loop of `filter_paths` (line 76) over the apps of the current
map. -/
def filterApps (gridsDir : String) (original : GridImageCache) :
    GridImageCache → List FsOp × Option (List ChangedPath)
  | [] => ([], some [])
  | (appid, grids_map) :: rest =>
    match filterEntries gridsDir appid original grids_map with
    | (ops1, none) => (ops1, none)
    | (ops1, some l1) =>
      match filterApps gridsDir original rest with
      | (ops2, none) => (ops1 ++ ops2, none)
      | (ops2, some l2) => (ops1 ++ ops2, some (l1 ++ l2))

/-- Model of `main.rs` `filter_paths` (lines 72–119).  The grid directory that the
Rust function obtains on line 73 through `steam::get_grids_directory` is
taken as the input `gridsDir`; the remainder of the body, lines 74–118,
is translated statement by statement.  The first component is the
filesystem trace of that body. -/
def filter_paths (gridsDir : String) (current original : GridImageCache) :
    List FsOp × Option (List ChangedPath) :=
  filterApps gridsDir original current

/-- Model of `main.rs` `check_for_shortcut_changes` (lines 122–133): walks the
submitted icon map; `none` models the panics of `icon.as_str().expect`
(non-string value) and `original_shortcut_icons.get(..).expect` (id
missing from the original map); returns at the first differing icon. -/
def check_for_shortcut_changes :
    List (String × JVal) → List (String × JVal) → Option Bool
  | [], _ => some false
  | (shortcut_id, icon) :: rest, original =>
    match icon with
    | JVal.str s =>
      match List.lookup shortcut_id original with
      | some (JVal.str o) =>
        if s ≠ o then some true else check_for_shortcut_changes rest original
      | _ => none
    | _ => none

/-- The error string `format!("\x7b\x7b \"error\": \"\x7b\x7d\"\x7d\x7d", err)`
built by `save_changes` on a failed remove or copy. -/
def errFmt (e : String) : String := "\x7b \"error\": \"" ++ e ++ "\"\x7d"

/-- Outcome of processing changed paths: continue, return an error string,
or die by panic (`fatal`). -/
inductive StepRes where
  | ok
  | err (msg : String)
  | fatal
deriving DecidableEq

/-- How `save_changes` ends: with a returned string, or by panicking. -/
inductive SaveOutcome where
  | returned (s : String)
  | fatal
deriving DecidableEq

/-- The create-then-copy tail of the non-REMOVE branch of the
`save_changes` loop (lines 280–290): `fs::File::create(..).unwrap()` is a
panic (`fatal`) on failure; a copy failure returns the error object. -/
def continueCreate (fs : FsOp → Option String) (c : ChangedPath)
    (pre : List FsOp) : List FsOp × StepRes :=
  match fs (FsOp.createFile c.targetPath) with
  | some _ => (pre ++ [FsOp.createFile c.targetPath], StepRes.fatal)
  | none =>
    match fs (FsOp.copyFile c.sourcePath c.targetPath) with
    | some e =>
      (pre ++ [FsOp.createFile c.targetPath, FsOp.copyFile c.sourcePath c.targetPath],
       StepRes.err (errFmt e))
    | none =>
      (pre ++ [FsOp.createFile c.targetPath, FsOp.copyFile c.sourcePath c.targetPath],
       StepRes.ok)

/-- One iteration of the `save_changes` loop over the change-set
(lines 258–292): the old file is removed when `oldPath.contains("grid")`;
for the `"REMOVE"` sentinel nothing further happens; otherwise the
destination is created and the source copied. -/
def applyChangedPath (fs : FsOp → Option String) (c : ChangedPath) :
    List FsOp × StepRes :=
  if c.targetPath = "REMOVE" then
    if strContains c.oldPath "grid" then
      match fs (FsOp.removeFile c.oldPath) with
      | some e => ([FsOp.removeFile c.oldPath], StepRes.err (errFmt e))
      | none => ([FsOp.removeFile c.oldPath], StepRes.ok)
    else ([], StepRes.ok)
  else
    if strContains c.oldPath "grid" then
      match fs (FsOp.removeFile c.oldPath) with
      | some e => ([FsOp.removeFile c.oldPath], StepRes.err (errFmt e))
      | none => continueCreate fs c [FsOp.removeFile c.oldPath]
    else continueCreate fs c []

/-- The whole `for changed_path in paths_to_set` loop: stops at the first
record whose processing does not end in `StepRes.ok`. -/
def applyAll (fs : FsOp → Option String) : List ChangedPath → List FsOp × StepRes
  | [] => ([], StepRes.ok)
  | c :: rest =>
    match applyChangedPath fs c with
    | (ops, StepRes.ok) =>
      let (ops2, r2) := applyAll fs rest
      (ops ++ ops2, r2)
    | (ops, r) => (ops, r)

/-- Lower-case hex digit, as used by serde_json's `\u00xx` escapes. -/
def hexDigitCh (n : Nat) : Char :=
  if n < 10 then Char.ofNat (48 + n) else Char.ofNat (87 + n)

/-- serde_json string escaping of one character. -/
def escChar (c : Char) : List Char :=
  if c = '"' then ['\\', '"']
  else if c = '\\' then ['\\', '\\']
  else if c = Char.ofNat 8 then ['\\', 'b']
  else if c = Char.ofNat 9 then ['\\', 't']
  else if c = Char.ofNat 10 then ['\\', 'n']
  else if c = Char.ofNat 12 then ['\\', 'f']
  else if c = Char.ofNat 13 then ['\\', 'r']
  else if c.toNat < 32 then
    ['\\', 'u', '0', '0', hexDigitCh (c.toNat / 16), hexDigitCh (c.toNat % 16)]
  else [c]

/-- serde_json serialization of a string value. -/
def jsonStr (s : String) : String :=
  "\"" ++ String.mk (s.data.map escChar).flatten ++ "\""

/-- serde_json serialization of one `ChangedPath` (fields in declaration
order, as serde derives it). -/
def serializeChangedPath (c : ChangedPath) : String :=
  "\x7b\"appId\":" ++ jsonStr c.appId ++ ",\"gridType\":" ++ jsonStr c.gridType ++
  ",\"oldPath\":" ++ jsonStr c.oldPath ++ ",\"targetPath\":" ++ jsonStr c.targetPath ++
  ",\"sourcePath\":" ++ jsonStr c.sourcePath ++ "\x7d"

/-- serde_json serialization of `Vec<ChangedPath>` — the success return
value of `save_changes` (line 328). -/
def serializeChangedPaths (l : List ChangedPath) : String :=
  "[" ++ String.intercalate "," (l.map serializeChangedPath) ++ "]"

/-- serde_json `Map::insert`: replaces the value at an existing key in
place, appends otherwise (the sorted-position detail of the `BTreeMap` for
a fresh key does not matter to any property proved here, which read the
result back by key). -/
def jInsert (k : String) (v : JVal) : List (String × JVal) → List (String × JVal)
  | [] => [(k, v)]
  | (k2, v2) :: rest =>
    if k2 = k then (k2, v) :: rest else (k2, v2) :: jInsert k v rest

/-- Model of `paths_id_map` of `save_changes` (line 255): the change-set keyed by
`format!("\x7b\x7d_\x7b\x7d", appId, gridType)`. -/
def pathsIdMap (paths : List ChangedPath) : List (String × ChangedPath) :=
  paths.map fun c => (c.appId ++ "_" ++ c.gridType, c)

/-- Lookup in the collected `HashMap`: on a key collision the later list
entry wins, as with `Iterator::collect` into a `HashMap`. -/
def idMapLookup (m : List (String × ChangedPath)) (k : String) : Option ChangedPath :=
  List.lookup k m.reverse

/-- One iteration of the shortcut-patching loop of `save_changes`
(lines 303–315): reads the shortcut's `appid`, looks up
`format!("\x7b\x7d_icon", appid)` in `paths_id_map` and, on a hit,
overwrites the `icon` field; `none` models the `expect` panics for a
non-object shortcut or a missing/non-integer `appid`. -/
def patchShortcut (pm : List (String × ChangedPath)) : JVal → Option JVal
  | JVal.obj fields =>
    match List.lookup "appid" fields with
    | some (JVal.num n) =>
      let path_key := toString n ++ "_icon"
      match idMapLookup pm path_key with
      | some cp => some (JVal.obj (jInsert "icon" (JVal.str cp.targetPath) fields))
      | none => some (JVal.obj fields)
    | _ => none
  | _ => none

/-- The patching loop over every shortcut entry, in map order. -/
def patchShortcuts (pm : List (String × ChangedPath)) :
    List (String × JVal) → Option (List (String × JVal))
  | [] => some []
  | (k, v) :: rest =>
    match patchShortcut pm v with
    | none => none
    | some v2 =>
      match patchShortcuts pm rest with
      | none => none
      | some rest2 => some ((k, v2) :: rest2)

/-- The shortcut-rewrite phase of `save_changes` (lines 298–319): fetch
the `"shortcuts"` object out of the parsed shortcuts JSON (`expect`
panics modelled as `none`), patch every entry, and rebuild a fresh
top-level object holding only the `"shortcuts"` key, as lines 317–319
do. -/
def rewriteShortcuts (pm : List (String × ChangedPath)) : JVal → Option JVal
  | JVal.obj top =>
    match List.lookup "shortcuts" top with
    | some (JVal.obj smap) =>
      match patchShortcuts pm smap with
      | none => none
      | some smap2 => some (JVal.obj [("shortcuts", JVal.obj smap2)])
    | _ => none
  | _ => none

/-- Model of `main.rs` `save_changes` (lines 249–337).  The two art maps are the
already-parsed `current_art`/`original_art` JSON inputs, `shortcuts_data`
the already-parsed `shortcuts_str`, and `gridsDir` the directory that
`filter_paths` obtains from `steam::get_grids_directory`; the unused
`changed_logo_positions` argument is omitted.  Returns the filesystem
trace and the outcome. -/
def save_changes (fs : FsOp → Option String) (gridsDir : String)
    (current original : GridImageCache) (shortcuts_data : JVal)
    (shortcut_icons original_shortcut_icons : List (String × JVal)) :
    List FsOp × SaveOutcome :=
  let fops := (filter_paths gridsDir current original).1
  match (filter_paths gridsDir current original).2 with
  | none => (fops, SaveOutcome.fatal)
  | some paths_to_set =>
    let pm := pathsIdMap paths_to_set
    match applyAll fs paths_to_set with
    | (ops, StepRes.err m) => (fops ++ ops, SaveOutcome.returned m)
    | (ops, StepRes.fatal) => (fops ++ ops, SaveOutcome.fatal)
    | (ops, StepRes.ok) =>
      match check_for_shortcut_changes shortcut_icons original_shortcut_icons with
      | none => (fops ++ ops, SaveOutcome.fatal)
      | some true =>
        match rewriteShortcuts pm shortcuts_data with
        | none => (fops ++ ops, SaveOutcome.fatal)
        | some d =>
          (fops ++ ops ++ [FsOp.writeShortcuts d],
           SaveOutcome.returned (serializeChangedPaths paths_to_set))
      | some false =>
        (fops ++ ops, SaveOutcome.returned (serializeChangedPaths paths_to_set))

/-- The paths removed in a trace. -/
def removedPaths (ops : List FsOp) : List String :=
  ops.filterMap fun op =>
    match op with
    | FsOp.removeFile p => some p
    | _ => none

/-- The paths created in a trace. -/
def createdPaths (ops : List FsOp) : List String :=
  ops.filterMap fun op =>
    match op with
    | FsOp.createFile p => some p
    | _ => none

/-- The (source, destination) pairs copied in a trace. -/
def copiedPairs (ops : List FsOp) : List (String × String) :=
  ops.filterMap fun op =>
    match op with
    | FsOp.copyFile s t => some (s, t)
    | _ => none

/-- The data of every shortcuts-file write in a trace. -/
def writtenShortcutData (ops : List FsOp) : List JVal :=
  ops.filterMap fun op =>
    match op with
    | FsOp.writeShortcuts d => some d
    | _ => none

/-- Whether a trace writes the shortcuts file at all. -/
def hasShortcutWrite (ops : List FsOp) : Bool :=
  !(writtenShortcutData ops).isEmpty

/-- Reads the `icon` string of the shortcut stored under key `k` in a
shortcuts JSON value of the written shape. -/
def shortcutIconIn (d : JVal) (k : String) : Option String :=
  match d with
  | JVal.obj top =>
    match List.lookup "shortcuts" top with
    | some (JVal.obj sm) =>
      match List.lookup k sm with
      | some (JVal.obj f) =>
        match List.lookup "icon" f with
        | some (JVal.str s) => some s
        | _ => none
      | _ => none
    | _ => none
  | _ => none

/-- Modelled from the spec: the phrase "resides under the grid directory"
of §4.5, stated from the spec's words (a non-blank path lying strictly
inside `gridsDir`), for comparison with the code's substring test
`oldPath.contains("grid")`. -/
def residesUnderGridDir (gridsDir p : String) : Bool :=
  decide (p ≠ "") && strStartsWith p (gridsDir ++ "/")

/-! ### Helper lemmas about the trace extractors -/

@[simp] theorem removedPaths_nil : removedPaths [] = [] := rfl

@[simp] theorem removedPaths_cons_rm (p : String) (l : List FsOp) :
    removedPaths (FsOp.removeFile p :: l) = p :: removedPaths l := rfl

@[simp] theorem removedPaths_cons_cr (p : String) (l : List FsOp) :
    removedPaths (FsOp.createFile p :: l) = removedPaths l := rfl

@[simp] theorem removedPaths_cons_cp (s t : String) (l : List FsOp) :
    removedPaths (FsOp.copyFile s t :: l) = removedPaths l := rfl

@[simp] theorem removedPaths_cons_ws (d : JVal) (l : List FsOp) :
    removedPaths (FsOp.writeShortcuts d :: l) = removedPaths l := rfl

@[simp] theorem removedPaths_append (l1 l2 : List FsOp) :
    removedPaths (l1 ++ l2) = removedPaths l1 ++ removedPaths l2 :=
  List.filterMap_append l1 l2 _

@[simp] theorem createdPaths_nil : createdPaths [] = [] := rfl

@[simp] theorem createdPaths_cons_rm (p : String) (l : List FsOp) :
    createdPaths (FsOp.removeFile p :: l) = createdPaths l := rfl

@[simp] theorem createdPaths_cons_cr (p : String) (l : List FsOp) :
    createdPaths (FsOp.createFile p :: l) = p :: createdPaths l := rfl

@[simp] theorem createdPaths_cons_cp (s t : String) (l : List FsOp) :
    createdPaths (FsOp.copyFile s t :: l) = createdPaths l := rfl

@[simp] theorem createdPaths_cons_ws (d : JVal) (l : List FsOp) :
    createdPaths (FsOp.writeShortcuts d :: l) = createdPaths l := rfl

@[simp] theorem createdPaths_append (l1 l2 : List FsOp) :
    createdPaths (l1 ++ l2) = createdPaths l1 ++ createdPaths l2 :=
  List.filterMap_append l1 l2 _

@[simp] theorem copiedPairs_nil : copiedPairs [] = [] := rfl

@[simp] theorem copiedPairs_cons_rm (p : String) (l : List FsOp) :
    copiedPairs (FsOp.removeFile p :: l) = copiedPairs l := rfl

@[simp] theorem copiedPairs_cons_cr (p : String) (l : List FsOp) :
    copiedPairs (FsOp.createFile p :: l) = copiedPairs l := rfl

@[simp] theorem copiedPairs_cons_cp (s t : String) (l : List FsOp) :
    copiedPairs (FsOp.copyFile s t :: l) = (s, t) :: copiedPairs l := rfl

@[simp] theorem copiedPairs_cons_ws (d : JVal) (l : List FsOp) :
    copiedPairs (FsOp.writeShortcuts d :: l) = copiedPairs l := rfl

@[simp] theorem copiedPairs_append (l1 l2 : List FsOp) :
    copiedPairs (l1 ++ l2) = copiedPairs l1 ++ copiedPairs l2 :=
  List.filterMap_append l1 l2 _

@[simp] theorem writtenShortcutData_nil : writtenShortcutData [] = [] := rfl

@[simp] theorem writtenShortcutData_cons_rm (p : String) (l : List FsOp) :
    writtenShortcutData (FsOp.removeFile p :: l) = writtenShortcutData l := rfl

@[simp] theorem writtenShortcutData_cons_cr (p : String) (l : List FsOp) :
    writtenShortcutData (FsOp.createFile p :: l) = writtenShortcutData l := rfl

@[simp] theorem writtenShortcutData_cons_cp (s t : String) (l : List FsOp) :
    writtenShortcutData (FsOp.copyFile s t :: l) = writtenShortcutData l := rfl

@[simp] theorem writtenShortcutData_cons_ws (d : JVal) (l : List FsOp) :
    writtenShortcutData (FsOp.writeShortcuts d :: l) = d :: writtenShortcutData l := rfl

@[simp] theorem writtenShortcutData_append (l1 l2 : List FsOp) :
    writtenShortcutData (l1 ++ l2) =
      writtenShortcutData l1 ++ writtenShortcutData l2 :=
  List.filterMap_append l1 l2 _

/-! ### The reconciliation body performs no filesystem operations -/

theorem filterEntries_fst (gd a : String) (o : GridImageCache) :
    ∀ gm, (filterEntries gd a o gm).1 = []
  | [] => rfl
  | (gt, sp) :: rest => by
    have ih := filterEntries_fst gd a o rest
    simp only [filterEntries]
    split
    · exact ih
    · split
      · rfl
      · rcases hE : filterEntries gd a o rest with ⟨ops, r⟩
        rw [hE] at ih
        simpa using ih

theorem filterApps_fst (gd : String) (o : GridImageCache) :
    ∀ cur, (filterApps gd o cur).1 = []
  | [] => rfl
  | (a, gm) :: rest => by
    have ih := filterApps_fst gd o rest
    simp only [filterApps]
    split
    · next heq =>
      have := filterEntries_fst gd a o gm
      rw [heq] at this
      exact this
    · next ops1 l1 heq =>
      have h1 : ops1 = [] := by
        have := filterEntries_fst gd a o gm
        rw [heq] at this
        exact this
      split
      · next heq2 =>
        have h2 : (filterApps gd o rest).1 = [] := ih
        rw [heq2] at h2
        simp only [h1, List.nil_append]
        exact h2
      · next heq2 =>
        have h2 : (filterApps gd o rest).1 = [] := ih
        rw [heq2] at h2
        simp only [h1, List.nil_append]
        exact h2

/-! ### webpFix facts -/

theorem endsWith_jpg_not_webp (x : String) :
    strEndsWith (x ++ ".jpg") ".webp" = false := by
  have h : (x ++ ".jpg").data = x.data ++ ['.', 'j', 'p', 'g'] :=
    String.data_append x ".jpg"
  simp [strEndsWith, h, leadSeg]

theorem webpFix_not_webp (c : ChangedPath) :
    strEndsWith (webpFix c).targetPath ".webp" = false := by
  unfold webpFix
  split
  · exact endsWith_jpg_not_webp _
  · next h => simpa using h

theorem webpFix_appId (c : ChangedPath) : (webpFix c).appId = c.appId := by
  unfold webpFix; split <;> rfl

theorem webpFix_gridType (c : ChangedPath) : (webpFix c).gridType = c.gridType := by
  unfold webpFix; split <;> rfl

theorem webpFix_oldPath (c : ChangedPath) : (webpFix c).oldPath = c.oldPath := by
  unfold webpFix; split <;> rfl

theorem webpFix_sourcePath (c : ChangedPath) : (webpFix c).sourcePath = c.sourcePath := by
  unfold webpFix; split <;> rfl

theorem webpFix_remove (c : ChangedPath) (h : c.targetPath = "REMOVE") :
    (webpFix c).targetPath = "REMOVE" := by
  unfold webpFix
  rw [h]
  have hw : strEndsWith "REMOVE" ".webp" = false := by decide
  simp only [hw, Bool.false_eq_true, if_false]
  exact h

/-- Field facts about a record built by `mkChangedPath`. -/
theorem mkChangedPath_fields (gd a gt sp gp : String) (c : ChangedPath)
    (h : mkChangedPath gd a gt sp gp = some c) :
    c.appId = a ∧ c.gridType = gt ∧ c.oldPath = repSlash gp ∧
      c.sourcePath = repSlash sp ∧ (sp = "REMOVE" → c.targetPath = "REMOVE") := by
  unfold mkChangedPath at h
  split at h
  · next hne =>
    split at h
    · exact absurd h (by simp)
    · next adj hadj =>
      simp only [Option.some.injEq] at h
      subst h
      exact ⟨webpFix_appId _, webpFix_gridType _, webpFix_oldPath _,
        webpFix_sourcePath _, fun hr => absurd hr hne⟩
  · next hne =>
    simp only [Option.some.injEq] at h
    subst h
    exact ⟨webpFix_appId _, webpFix_gridType _, webpFix_oldPath _,
      webpFix_sourcePath _, fun _ => webpFix_remove _ rfl⟩

/-! ### Missing-extension panics -/

theorem extFrom_eq_none : ∀ l : List Char, '.' ∉ l → extFrom l = none
  | [], _ => rfl
  | c :: rest, h => by
    have h1 : '.' ∉ rest := fun hm => h (List.mem_cons_of_mem _ hm)
    have h2 : ¬ c = '.' := fun hc => h (hc ▸ List.mem_cons_self c rest)
    simp [extFrom, extFrom_eq_none rest h1, h2]

theorem adjust_path_eq_none (a p g : String) (h : '.' ∉ p.data) :
    adjust_path a p g = none := by
  simp [adjust_path, extFrom_eq_none p.data h]

theorem mkChangedPath_eq_none (gd a gt sp gp : String)
    (hrm : sp ≠ "REMOVE") (h : '.' ∉ sp.data) :
    mkChangedPath gd a gt sp gp = none := by
  simp [mkChangedPath, hrm, adjust_path_eq_none a sp gt h]

theorem filterEntries_none_of_mem (gd a : String) (o : GridImageCache) :
    ∀ gm gt sp, (gt, sp) ∈ gm →
      sp ≠ (lookup2 o a gt).getD "" →
      mkChangedPath gd a gt sp ((lookup2 o a gt).getD "") = none →
      (filterEntries gd a o gm).2 = none
  | [], _, _, hmem, _, _ => absurd hmem (List.not_mem_nil _)
  | (gt0, sp0) :: rest, gt, sp, hmem, hne, hnone => by
    rcases List.mem_cons.mp hmem with heq | hmem2
    · injection heq with e1 e2
      subst e1; subst e2
      simp only [filterEntries]
      rw [if_neg hne, hnone]
    · have ih := filterEntries_none_of_mem gd a o rest gt sp hmem2 hne hnone
      simp only [filterEntries]
      split
      · exact ih
      · split
        · rfl
        · rcases hE : filterEntries gd a o rest with ⟨ops, r⟩
          rw [hE] at ih
          simp only at ih
          simp [ih]

theorem filterApps_none_of_mem (gd : String) (o : GridImageCache) :
    ∀ cur (a : String) gm, (a, gm) ∈ cur →
      (filterEntries gd a o gm).2 = none →
      (filterApps gd o cur).2 = none
  | [], _, _, hmem, _ => absurd hmem (List.not_mem_nil _)
  | (a0, gm0) :: rest, a, gm, hmem, hnone => by
    rcases List.mem_cons.mp hmem with heq | hmem2
    · injection heq with e1 e2
      subst e1; subst e2
      simp only [filterApps]
      rcases hE : filterEntries gd a o gm with ⟨ops, r⟩
      rw [hE] at hnone
      simp only at hnone
      subst hnone
      rfl
    · have ih := filterApps_none_of_mem gd o rest a gm hmem2 hnone
      simp only [filterApps]
      split
      · rfl
      · rcases hA : filterApps gd o rest with ⟨ops2, r2⟩
        rw [hA] at ih
        simp only at ih
        subst ih
        rfl

/-- Claim C2: the reconciliation body (`filter_paths`, with the grid
directory obtained on line 73 taken as its input) is a pure function of
the current map, the original map and the grid directory: its filesystem
trace is empty, and identical inputs give identical outputs. -/
theorem filter_paths_pure (g : String) (cur orig : GridImageCache) :
    (filter_paths g cur orig).1 = [] ∧
      ∀ g2 cur2 orig2, g2 = g → cur2 = cur → orig2 = orig →
        filter_paths g2 cur2 orig2 = filter_paths g cur orig := by
  refine ⟨filterApps_fst g orig cur, ?_⟩
  rintro g2 cur2 orig2 rfl rfl rfl
  rfl

/-- Witness for `filter_paths_pure` at a concrete input. -/
theorem filter_paths_pure_witness :
    (filter_paths "/grids" [("100", [("Hero", "/tmp/a.webp")])] []).1 = [] ∧
      filter_paths "/grids" [("100", [("Hero", "/tmp/a.webp")])] [] =
        filter_paths "/grids" [("100", [("Hero", "/tmp/a.webp")])] [] :=
  ⟨(filter_paths_pure "/grids" [("100", [("Hero", "/tmp/a.webp")])] []).1,
   (filter_paths_pure "/grids" [("100", [("Hero", "/tmp/a.webp")])] []).2
     _ _ _ rfl rfl rfl⟩

/-- Claim C9: the grid filename is type-specific — Capsule, Wide Capsule,
Hero, Logo and Icon produce their documented patterns, and every other
grid type string makes `get_grid_filename` return no value (the Rust
panic). -/
theorem get_grid_filename_spec :
    (∀ a t, get_grid_filename a "Capsule" t = some (a ++ "p" ++ t)) ∧
    (∀ a t, get_grid_filename a "Wide Capsule" t = some (a ++ t)) ∧
    (∀ a t, get_grid_filename a "Hero" t = some (a ++ "_hero" ++ t)) ∧
    (∀ a t, get_grid_filename a "Logo" t = some (a ++ "_logo" ++ t)) ∧
    (∀ a t, get_grid_filename a "Icon" t = some (a ++ "_icon" ++ t)) ∧
    (∀ a g t, g ≠ "Capsule" → g ≠ "Wide Capsule" → g ≠ "Hero" → g ≠ "Logo" →
      g ≠ "Icon" → get_grid_filename a g t = none) := by
  refine ⟨fun a t => rfl, fun a t => rfl, fun a t => rfl, fun a t => rfl,
    fun a t => rfl, fun a g t h1 h2 h3 h4 h5 => ?_⟩
  simp [get_grid_filename, h1, h2, h3, h4, h5]

/-- Witness for `get_grid_filename_spec` on the unrecognized type
`"Banner"`. -/
theorem get_grid_filename_spec_witness :
    get_grid_filename "1" "Banner" ".png" = none :=
  get_grid_filename_spec.2.2.2.2.2 "1" "Banner" ".png"
    (by decide) (by decide) (by decide) (by decide) (by decide)

/-- Claim C4: the `/tmp/art.webp` Hero assignment for app 100 with empty
original map and grid directory `/grids` produces exactly one record with
targetPath `/grids/100_hero.jpg` and sourcePath `/tmp/art.webp`; in
general no produced record's targetPath ends in `.webp` (the rewrite is
always applied to the computed destination) and the sourcePath is always
the slash-normalized source, never extension-rewritten. -/
theorem webp_rewrite_spec :
    (filter_paths "/grids" [("100", [("Hero", "/tmp/art.webp")])] []).2 =
      some [⟨"100", "Hero", "", "/grids/100_hero.jpg", "/tmp/art.webp"⟩] ∧
    (∀ g a gt sp gp c, mkChangedPath g a gt sp gp = some c →
      strEndsWith c.targetPath ".webp" = false ∧ c.sourcePath = repSlash sp) := by
  refine ⟨by decide, fun g a gt sp gp c h => ?_⟩
  have hf := mkChangedPath_fields g a gt sp gp c h
  refine ⟨?_, hf.2.2.2.1⟩
  unfold mkChangedPath at h
  split at h
  · split at h
    · exact absurd h (by simp)
    · simp only [Option.some.injEq] at h
      subst h
      exact webpFix_not_webp _
  · simp only [Option.some.injEq] at h
    subst h
    exact webpFix_not_webp _

/-- Witness for the general part of `webp_rewrite_spec`. -/
theorem webp_rewrite_spec_witness :
    mkChangedPath "/grids" "100" "Hero" "/tmp/art.webp" "" =
      some ⟨"100", "Hero", "", "/grids/100_hero.jpg", "/tmp/art.webp"⟩ ∧
    strEndsWith
        (ChangedPath.targetPath
          ⟨"100", "Hero", "", "/grids/100_hero.jpg", "/tmp/art.webp"⟩)
        ".webp" = false ∧
    ChangedPath.sourcePath
        ⟨"100", "Hero", "", "/grids/100_hero.jpg", "/tmp/art.webp"⟩ =
      repSlash "/tmp/art.webp" :=
  ⟨by decide,
   webp_rewrite_spec.2 "/grids" "100" "Hero" "/tmp/art.webp" "" _ (by decide)⟩

/-- Claim C10: an unstated precondition of `filter_paths` — every changed,
non-REMOVE source path must contain a `'.'`; a changed source path without
one makes the function panic (`adjust_path`'s `rfind(".").expect`) rather
than return a change-set. -/
theorem filter_paths_dot_precondition :
    (∀ a p g, '.' ∉ p.data → adjust_path a p g = none) ∧
    (∀ gridsDir cur orig appid gm gt sp,
      (appid, gm) ∈ cur → (gt, sp) ∈ gm →
      sp ≠ (lookup2 orig appid gt).getD "" → sp ≠ "REMOVE" → '.' ∉ sp.data →
      (filter_paths gridsDir cur orig).2 = none) := by
  refine ⟨adjust_path_eq_none, ?_⟩
  intro gridsDir cur orig appid gm gt sp hm1 hm2 hne hrm hdot
  exact filterApps_none_of_mem gridsDir orig cur appid gm hm1
    (filterEntries_none_of_mem gridsDir appid orig gm gt sp hm2 hne
      (mkChangedPath_eq_none gridsDir appid gt sp _ hrm hdot))

/-- Witness for `filter_paths_dot_precondition` on the extension-less
source path `"noext"`. -/
theorem filter_paths_dot_precondition_witness :
    (filter_paths "/g" [("1", [("Hero", "noext")])] []).2 = none :=
  filter_paths_dot_precondition.2 "/g" [("1", [("Hero", "noext")])] []
    "1" [("Hero", "noext")] "Hero" "noext"
    (by decide) (by decide) (by decide) (by decide) (by decide)

/-! ### Shortcut-change detection -/

theorem check_for_shortcut_changes_aux :
    ∀ (icons orig : List (String × JVal)),
      (∀ p ∈ icons, ∃ s, p.2 = JVal.str s ∧
          ∃ os, List.lookup p.1 orig = some (JVal.str os)) →
      ((check_for_shortcut_changes icons orig = some true ↔
        ∃ id s os, (id, JVal.str s) ∈ icons ∧
          List.lookup id orig = some (JVal.str os) ∧ s ≠ os) ∧
       (check_for_shortcut_changes icons orig = some false ↔
        ¬ ∃ id s os, (id, JVal.str s) ∈ icons ∧
          List.lookup id orig = some (JVal.str os) ∧ s ≠ os))
  | [], orig, _ => by
    constructor
    · simp [check_for_shortcut_changes]
    · simp [check_for_shortcut_changes]
  | (id0, v0) :: rest, orig, hwf => by
    obtain ⟨s0, hv0, o0, ho0⟩ := hwf (id0, v0) (List.mem_cons_self _ _)
    have hv0' : v0 = JVal.str s0 := hv0
    subst hv0'
    have ho0' : List.lookup id0 orig = some (JVal.str o0) := ho0
    have hstep : check_for_shortcut_changes ((id0, JVal.str s0) :: rest) orig =
        if s0 ≠ o0 then some true else check_for_shortcut_changes rest orig := by
      simp only [check_for_shortcut_changes]
      rw [ho0']
    by_cases hso : s0 = o0
    · have hifs : check_for_shortcut_changes ((id0, JVal.str s0) :: rest) orig =
          check_for_shortcut_changes rest orig := by
        rw [hstep, if_neg (by simpa using hso)]
      have hwfr : ∀ p ∈ rest, ∃ s, p.2 = JVal.str s ∧
          ∃ os, List.lookup p.1 orig = some (JVal.str os) :=
        fun p hp => hwf p (List.mem_cons_of_mem _ hp)
      obtain ⟨ih1, ih2⟩ := check_for_shortcut_changes_aux rest orig hwfr
      have hequiv : (∃ id s os, (id, JVal.str s) ∈ (id0, JVal.str s0) :: rest ∧
            List.lookup id orig = some (JVal.str os) ∧ s ≠ os) ↔
          (∃ id s os, (id, JVal.str s) ∈ rest ∧
            List.lookup id orig = some (JVal.str os) ∧ s ≠ os) := by
        constructor
        · rintro ⟨id, s, os, hmem, hlk, hne⟩
          rcases List.mem_cons.mp hmem with heq | hm2
          · injection heq with e1 e2
            subst e1
            injection e2 with e3
            subst e3
            rw [ho0'] at hlk
            injection hlk with e4
            injection e4 with e5
            exact absurd (hso.trans e5) hne
          · exact ⟨id, s, os, hm2, hlk, hne⟩
        · rintro ⟨id, s, os, hm, hlk, hne⟩
          exact ⟨id, s, os, List.mem_cons_of_mem _ hm, hlk, hne⟩
      rw [hifs]
      exact ⟨ih1.trans hequiv.symm, ih2.trans (not_congr hequiv.symm)⟩
    · have hift : check_for_shortcut_changes ((id0, JVal.str s0) :: rest) orig =
          some true := by
        rw [hstep, if_pos hso]
      constructor
      · constructor
        · intro _
          exact ⟨id0, s0, o0, List.mem_cons_self _ _, ho0', hso⟩
        · intro _
          exact hift
      · refine iff_of_false (by simp [hift]) ?_
        intro hno
        exact hno ⟨id0, s0, o0, List.mem_cons_self _ _, ho0', hso⟩

/-- Claim C7: `check_for_shortcut_changes` returns true iff at least one
shortcut id present in the submitted icon map has an icon differing from
the one recorded for the same id in the original map (when every submitted
entry is a string and has an original entry, as the `expect`s demand), and
with zero entries it returns false unconditionally. -/
theorem check_for_shortcut_changes_spec :
    (∀ orig, check_for_shortcut_changes [] orig = some false) ∧
    (∀ icons orig,
      (∀ p ∈ icons, ∃ s, p.2 = JVal.str s ∧
          ∃ os, List.lookup p.1 orig = some (JVal.str os)) →
      ((check_for_shortcut_changes icons orig = some true ↔
        ∃ id s os, (id, JVal.str s) ∈ icons ∧
          List.lookup id orig = some (JVal.str os) ∧ s ≠ os) ∧
       (check_for_shortcut_changes icons orig = some false ↔
        ¬ ∃ id s os, (id, JVal.str s) ∈ icons ∧
          List.lookup id orig = some (JVal.str os) ∧ s ≠ os))) :=
  ⟨fun _ => rfl, fun icons orig hwf => check_for_shortcut_changes_aux icons orig hwf⟩

/-- Witness for `check_for_shortcut_changes_spec` at a one-entry map with
a differing icon. -/
theorem check_for_shortcut_changes_spec_witness :
    check_for_shortcut_changes [("0", JVal.str "a")] [("0", JVal.str "b")] =
      some true :=
  ((check_for_shortcut_changes_spec.2 [("0", JVal.str "a")] [("0", JVal.str "b")]
      (by
        intro p hp
        have hp' : p = ("0", JVal.str "a") := by simpa using hp
        subst hp'
        exact ⟨"a", rfl, "b", rfl⟩)).1).mpr
    ⟨"0", "a", "b", List.mem_cons_self _ _, rfl, by decide⟩

/-! ### Per-record filesystem behavior of the save loop -/

/-- Claim C5 (amended): per record, the old file is deleted first exactly
when `oldPath` contains the substring `"grid"`; a `"REMOVE"` targetPath
stops the record's processing after the delete (no create, no copy); a
failed delete prevents both the create and the copy; otherwise the
destination is created and, when the create succeeded, the source is
copied onto it. -/
theorem applyChangedPath_record_spec (fs : FsOp → Option String) (c : ChangedPath) :
    (removedPaths (applyChangedPath fs c).1 =
      if strContains c.oldPath "grid" then [c.oldPath] else []) ∧
    (strContains c.oldPath "grid" = true →
      (applyChangedPath fs c).1.head? = some (FsOp.removeFile c.oldPath)) ∧
    (c.targetPath = "REMOVE" →
      createdPaths (applyChangedPath fs c).1 = [] ∧
      copiedPairs (applyChangedPath fs c).1 = []) ∧
    (∀ e, strContains c.oldPath "grid" = true →
      fs (FsOp.removeFile c.oldPath) = some e →
      createdPaths (applyChangedPath fs c).1 = [] ∧
      copiedPairs (applyChangedPath fs c).1 = []) ∧
    (c.targetPath ≠ "REMOVE" →
      (strContains c.oldPath "grid" = true → fs (FsOp.removeFile c.oldPath) = none) →
      createdPaths (applyChangedPath fs c).1 = [c.targetPath] ∧
      (fs (FsOp.createFile c.targetPath) = none →
        copiedPairs (applyChangedPath fs c).1 = [(c.sourcePath, c.targetPath)])) := by
  by_cases h1 : c.targetPath = "REMOVE" <;>
  cases h2 : strContains c.oldPath "grid" <;>
  cases h3 : fs (FsOp.removeFile c.oldPath) <;>
  cases h4 : fs (FsOp.createFile c.targetPath) <;>
  cases h5 : fs (FsOp.copyFile c.sourcePath c.targetPath) <;>
  simp_all [applyChangedPath, continueCreate]

/-- Witness for `applyChangedPath_record_spec`: a `"REMOVE"` record causes
no create and no copy. -/
theorem applyChangedPath_record_spec_witness :
    createdPaths (applyChangedPath (fun _ => none)
        ⟨"1", "Icon", "/grids/1_icon.png", "REMOVE", "REMOVE"⟩).1 = [] ∧
    copiedPairs (applyChangedPath (fun _ => none)
        ⟨"1", "Icon", "/grids/1_icon.png", "REMOVE", "REMOVE"⟩).1 = [] :=
  (applyChangedPath_record_spec (fun _ => none)
      ⟨"1", "Icon", "/grids/1_icon.png", "REMOVE", "REMOVE"⟩).2.2.1 rfl

/-- Claim C5 counterexample: the delete gate is the substring test
`oldPath.contains("grid")`, not "resides under the grid directory": with
grid directory `/grids`, the record whose `oldPath` is
`/tmp/gridx/a.png` (not under `/grids`) still gets its old file deleted,
so "deleted exactly when oldPath is non-empty and resides under the grid
directory" is false on the code. -/
theorem remove_gate_counterexample :
    removedPaths (save_changes (fun _ => none) "/grids"
        [("1", [("Icon", "REMOVE")])] [("1", [("Icon", "/tmp/gridx/a.png")])]
        JVal.other [] []).1 = ["/tmp/gridx/a.png"] ∧
    residesUnderGridDir "/grids" "/tmp/gridx/a.png" = false := by
  constructor
  · decide
  · decide

/-! ### The loop over the change-set -/

theorem applyAll_cons_ok (fs : FsOp → Option String) (c : ChangedPath)
    (rest : List ChangedPath) (o0 : List FsOp)
    (h : applyChangedPath fs c = (o0, StepRes.ok)) :
    applyAll fs (c :: rest) =
      (o0 ++ (applyAll fs rest).1, (applyAll fs rest).2) := by
  rcases hR : applyAll fs rest with ⟨ops2, r2⟩
  simp [applyAll, h, hR]

theorem applyAll_cons_stop (fs : FsOp → Option String) (c : ChangedPath)
    (rest : List ChangedPath) (o0 : List FsOp) (r : StepRes)
    (h : applyChangedPath fs c = (o0, r)) (hne : r ≠ StepRes.ok) :
    applyAll fs (c :: rest) = (o0, r) := by
  cases r with
  | ok => exact absurd rfl hne
  | err m => simp [applyAll, h]
  | fatal => simp [applyAll, h]

theorem applyChangedPath_no_write (fs : FsOp → Option String) (c : ChangedPath) :
    writtenShortcutData (applyChangedPath fs c).1 = [] := by
  by_cases h1 : c.targetPath = "REMOVE" <;>
  cases h2 : strContains c.oldPath "grid" <;>
  cases h3 : fs (FsOp.removeFile c.oldPath) <;>
  cases h4 : fs (FsOp.createFile c.targetPath) <;>
  cases h5 : fs (FsOp.copyFile c.sourcePath c.targetPath) <;>
  simp_all [applyChangedPath, continueCreate]

theorem applyAll_no_write (fs : FsOp → Option String) :
    ∀ paths, writtenShortcutData (applyAll fs paths).1 = []
  | [] => rfl
  | c :: rest => by
    have ih := applyAll_no_write fs rest
    have hc := applyChangedPath_no_write fs c
    rcases hA : applyChangedPath fs c with ⟨o0, r0⟩
    rw [hA] at hc
    simp only at hc
    cases r0 with
    | ok =>
      rw [applyAll_cons_ok fs c rest o0 hA]
      simp [hc, ih]
    | err m =>
      rw [applyAll_cons_stop fs c rest o0 (StepRes.err m) hA (by simp)]
      exact hc
    | fatal =>
      rw [applyAll_cons_stop fs c rest o0 StepRes.fatal hA (by simp)]
      exact hc

theorem continueCreate_err_shape (fs : FsOp → Option String) (c : ChangedPath)
    (pre ops : List FsOp) (m : String)
    (h : continueCreate fs c pre = (ops, StepRes.err m)) :
    ∃ op e, ops.getLast? = some op ∧ fs op = some e ∧ m = errFmt e ∧
      ((∃ p, op = FsOp.removeFile p) ∨ (∃ s t, op = FsOp.copyFile s t)) := by
  unfold continueCreate at h
  split at h
  · rw [Prod.mk.injEq] at h
    exact absurd h.2 (by simp)
  · split at h
    · next e heq =>
      rw [Prod.mk.injEq] at h
      obtain ⟨hops, hm⟩ := h
      injection hm with hm
      refine ⟨FsOp.copyFile c.sourcePath c.targetPath, e, ?_, heq, hm.symm,
        Or.inr ⟨_, _, rfl⟩⟩
      rw [← hops]
      have hsplit : pre ++ [FsOp.createFile c.targetPath,
          FsOp.copyFile c.sourcePath c.targetPath] =
          (pre ++ [FsOp.createFile c.targetPath]) ++
            [FsOp.copyFile c.sourcePath c.targetPath] := by
        simp
      rw [hsplit, List.getLast?_concat]
    · rw [Prod.mk.injEq] at h
      exact absurd h.2 (by simp)

theorem continueCreate_fatal_shape (fs : FsOp → Option String) (c : ChangedPath)
    (pre ops : List FsOp)
    (h : continueCreate fs c pre = (ops, StepRes.fatal)) :
    ∃ e, ops.getLast? = some (FsOp.createFile c.targetPath) ∧
      fs (FsOp.createFile c.targetPath) = some e := by
  unfold continueCreate at h
  split at h
  · next e heq =>
    rw [Prod.mk.injEq] at h
    obtain ⟨hops, _⟩ := h
    refine ⟨e, ?_, heq⟩
    rw [← hops, List.getLast?_concat]
  · split at h
    · rw [Prod.mk.injEq] at h
      exact absurd h.2 (by simp)
    · rw [Prod.mk.injEq] at h
      exact absurd h.2 (by simp)

theorem applyChangedPath_err_shape (fs : FsOp → Option String) (c : ChangedPath)
    (ops : List FsOp) (m : String)
    (h : applyChangedPath fs c = (ops, StepRes.err m)) :
    ∃ op e, ops.getLast? = some op ∧ fs op = some e ∧ m = errFmt e ∧
      ((∃ p, op = FsOp.removeFile p) ∨ (∃ s t, op = FsOp.copyFile s t)) := by
  unfold applyChangedPath at h
  split at h
  · split at h
    · split at h
      · next e heq =>
        rw [Prod.mk.injEq] at h
        obtain ⟨hops, hm⟩ := h
        injection hm with hm
        exact ⟨FsOp.removeFile c.oldPath, e, by rw [← hops]; rfl, heq, hm.symm,
          Or.inl ⟨_, rfl⟩⟩
      · rw [Prod.mk.injEq] at h
        exact absurd h.2 (by simp)
    · rw [Prod.mk.injEq] at h
      exact absurd h.2 (by simp)
  · split at h
    · split at h
      · next e heq =>
        rw [Prod.mk.injEq] at h
        obtain ⟨hops, hm⟩ := h
        injection hm with hm
        exact ⟨FsOp.removeFile c.oldPath, e, by rw [← hops]; rfl, heq, hm.symm,
          Or.inl ⟨_, rfl⟩⟩
      · exact continueCreate_err_shape fs c _ ops m h
    · exact continueCreate_err_shape fs c _ ops m h

theorem applyChangedPath_fatal_shape (fs : FsOp → Option String) (c : ChangedPath)
    (ops : List FsOp)
    (h : applyChangedPath fs c = (ops, StepRes.fatal)) :
    ∃ p e, ops.getLast? = some (FsOp.createFile p) ∧
      fs (FsOp.createFile p) = some e := by
  unfold applyChangedPath at h
  split at h
  · split at h
    · split at h
      · rw [Prod.mk.injEq] at h
        exact absurd h.2 (by simp)
      · rw [Prod.mk.injEq] at h
        exact absurd h.2 (by simp)
    · rw [Prod.mk.injEq] at h
      exact absurd h.2 (by simp)
  · split at h
    · split at h
      · rw [Prod.mk.injEq] at h
        exact absurd h.2 (by simp)
      · obtain ⟨e, he1, he2⟩ := continueCreate_fatal_shape fs c _ ops h
        exact ⟨c.targetPath, e, he1, he2⟩
    · obtain ⟨e, he1, he2⟩ := continueCreate_fatal_shape fs c _ ops h
      exact ⟨c.targetPath, e, he1, he2⟩

theorem applyAll_decomp (fs : FsOp → Option String) :
    ∀ paths ops r, applyAll fs paths = (ops, r) → r ≠ StepRes.ok →
      ∃ pre c post ops1 ops2, paths = pre ++ c :: post ∧
        applyAll fs pre = (ops1, StepRes.ok) ∧
        applyChangedPath fs c = (ops2, r) ∧ ops = ops1 ++ ops2
  | [], ops, r, h, hne => absurd (congrArg Prod.snd h).symm hne
  | c :: rest, ops, r, h, hne => by
    rcases hA : applyChangedPath fs c with ⟨o0, r0⟩
    cases r0 with
    | ok =>
      rw [applyAll_cons_ok fs c rest o0 hA] at h
      rcases hR : applyAll fs rest with ⟨ops2, r2⟩
      rw [hR] at h
      have hops : o0 ++ ops2 = ops := congrArg Prod.fst h
      have hr : r2 = r := congrArg Prod.snd h
      subst hr
      obtain ⟨pre, c1, post, ops1, ops2', hps, hpre, hc1, hops'⟩ :=
        applyAll_decomp fs rest ops2 r2 hR hne
      refine ⟨c :: pre, c1, post, o0 ++ ops1, ops2', by simp [hps], ?_, hc1, ?_⟩
      · rw [applyAll_cons_ok fs c pre o0 hA, hpre]
      · rw [← hops, hops', List.append_assoc]
    | err m =>
      rw [applyAll_cons_stop fs c rest o0 (StepRes.err m) hA (by simp)] at h
      have hops : o0 = ops := congrArg Prod.fst h
      have hr : StepRes.err m = r := congrArg Prod.snd h
      subst hops
      subst hr
      exact ⟨[], c, rest, [], o0, rfl, rfl, hA, rfl⟩
    | fatal =>
      rw [applyAll_cons_stop fs c rest o0 StepRes.fatal hA (by simp)] at h
      have hops : o0 = ops := congrArg Prod.fst h
      have hr : StepRes.fatal = r := congrArg Prod.snd h
      subst hops
      subst hr
      exact ⟨[], c, rest, [], o0, rfl, rfl, hA, rfl⟩

/-! ### Branch equations for save_changes -/

theorem save_changes_err_eq (fs : FsOp → Option String) (g : String)
    (cur orig : GridImageCache) (sdata : JVal)
    (icons oicons : List (String × JVal)) (paths : List ChangedPath)
    (hf : (filter_paths g cur orig).2 = some paths)
    (ops : List FsOp) (m : String)
    (happ : applyAll fs paths = (ops, StepRes.err m)) :
    save_changes fs g cur orig sdata icons oicons =
      (ops, SaveOutcome.returned m) := by
  have hfe : (filter_paths g cur orig).1 = [] := filterApps_fst g orig cur
  simp only [save_changes, hf, hfe, happ, List.nil_append]

theorem save_changes_fatal_eq (fs : FsOp → Option String) (g : String)
    (cur orig : GridImageCache) (sdata : JVal)
    (icons oicons : List (String × JVal)) (paths : List ChangedPath)
    (hf : (filter_paths g cur orig).2 = some paths)
    (ops : List FsOp)
    (happ : applyAll fs paths = (ops, StepRes.fatal)) :
    save_changes fs g cur orig sdata icons oicons = (ops, SaveOutcome.fatal) := by
  have hfe : (filter_paths g cur orig).1 = [] := filterApps_fst g orig cur
  simp only [save_changes, hf, hfe, happ, List.nil_append]

theorem save_changes_ok_false_eq (fs : FsOp → Option String) (g : String)
    (cur orig : GridImageCache) (sdata : JVal)
    (icons oicons : List (String × JVal)) (paths : List ChangedPath)
    (hf : (filter_paths g cur orig).2 = some paths)
    (ops : List FsOp)
    (happ : applyAll fs paths = (ops, StepRes.ok))
    (hchk : check_for_shortcut_changes icons oicons = some false) :
    save_changes fs g cur orig sdata icons oicons =
      (ops, SaveOutcome.returned (serializeChangedPaths paths)) := by
  have hfe : (filter_paths g cur orig).1 = [] := filterApps_fst g orig cur
  simp only [save_changes, hf, hfe, happ, hchk, List.nil_append]

theorem save_changes_ok_true_eq (fs : FsOp → Option String) (g : String)
    (cur orig : GridImageCache) (sdata : JVal)
    (icons oicons : List (String × JVal)) (paths : List ChangedPath)
    (hf : (filter_paths g cur orig).2 = some paths)
    (ops : List FsOp)
    (happ : applyAll fs paths = (ops, StepRes.ok))
    (hchk : check_for_shortcut_changes icons oicons = some true)
    (d : JVal)
    (hrw : rewriteShortcuts (pathsIdMap paths) sdata = some d) :
    save_changes fs g cur orig sdata icons oicons =
      (ops ++ [FsOp.writeShortcuts d],
       SaveOutcome.returned (serializeChangedPaths paths)) := by
  have hfe : (filter_paths g cur orig).1 = [] := filterApps_fst g orig cur
  simp only [save_changes, hf, hfe, happ, hchk, hrw, List.nil_append]

/-- Claim C8: the shortcuts file is written exactly when
`check_for_shortcut_changes` reports a difference — under the conditions
in which the save cycle reaches and survives that check (the filesystem
loop succeeded, the check itself does not panic, and, when a rewrite is
due, the submitted shortcuts JSON is well-formed); and a failed
filesystem loop never writes the shortcuts file either. -/
theorem shortcuts_write_gate (fs : FsOp → Option String) (g : String)
    (cur orig : GridImageCache) (sdata : JVal)
    (icons oicons : List (String × JVal)) (paths : List ChangedPath)
    (hf : (filter_paths g cur orig).2 = some paths) :
    (∀ ops b, applyAll fs paths = (ops, StepRes.ok) →
      check_for_shortcut_changes icons oicons = some b →
      (b = true → ∃ d, rewriteShortcuts (pathsIdMap paths) sdata = some d) →
      (hasShortcutWrite (save_changes fs g cur orig sdata icons oicons).1 = true ↔
        b = true)) ∧
    (∀ ops m, applyAll fs paths = (ops, StepRes.err m) →
      hasShortcutWrite (save_changes fs g cur orig sdata icons oicons).1 = false) := by
  have hnw : writtenShortcutData (applyAll fs paths).1 = [] := applyAll_no_write fs paths
  constructor
  · intro ops b happ hchk hrw
    have hops : writtenShortcutData ops = [] := by
      rw [happ] at hnw
      exact hnw
    cases b
    · rw [save_changes_ok_false_eq fs g cur orig sdata icons oicons paths hf ops happ hchk]
      simp [hasShortcutWrite, hops]
    · obtain ⟨d, hd⟩ := hrw rfl
      rw [save_changes_ok_true_eq fs g cur orig sdata icons oicons paths hf ops happ hchk d hd]
      simp [hasShortcutWrite, hops]
  · intro ops m happ
    have hops : writtenShortcutData ops = [] := by
      rw [happ] at hnw
      exact hnw
    rw [save_changes_err_eq fs g cur orig sdata icons oicons paths hf ops m happ]
    simp [hasShortcutWrite, hops]

/-- Witness for `shortcuts_write_gate`: with identical submitted and
original icons the shortcuts file is not written. -/
theorem shortcuts_write_gate_witness :
    hasShortcutWrite (save_changes (fun _ => none) "/grids"
        [("1", [("Icon", "REMOVE")])] [("1", [("Icon", "/grids/old.png")])]
        JVal.other [("0", JVal.str "a")] [("0", JVal.str "a")]).1 = true ↔
      false = true :=
  (shortcuts_write_gate (fun _ => none) "/grids"
      [("1", [("Icon", "REMOVE")])] [("1", [("Icon", "/grids/old.png")])]
      JVal.other [("0", JVal.str "a")] [("0", JVal.str "a")]
      [⟨"1", "Icon", "/grids/old.png", "REMOVE", "REMOVE"⟩] (by decide)).1
    [FsOp.removeFile "/grids/old.png"] false rfl rfl
    (fun h => absurd h (by decide))

/-! ### Error behavior of save_changes -/

/-- Claim C3 (amended): a failed remove or copy makes `save_changes` stop
at that operation and return the error object `\x7b "error": <msg>\x7d` built
from that first failure; a failed create stops it by panic instead of
returning a value; in both cases the trace ends at the failing operation
with nothing after it (fail-fast, and in particular no rollback of the
operations of earlier records, which stay in the trace); on success the
return value is the serialized JSON array of Changed Path Records. -/
theorem save_changes_error_spec (fs : FsOp → Option String) (g : String)
    (cur orig : GridImageCache) (sdata : JVal)
    (icons oicons : List (String × JVal)) (paths : List ChangedPath)
    (hf : (filter_paths g cur orig).2 = some paths) :
    (∀ ops m, applyAll fs paths = (ops, StepRes.err m) →
      save_changes fs g cur orig sdata icons oicons =
        (ops, SaveOutcome.returned m) ∧
      ∃ op e, ops.getLast? = some op ∧ fs op = some e ∧ m = errFmt e ∧
        ((∃ p, op = FsOp.removeFile p) ∨ (∃ s t, op = FsOp.copyFile s t))) ∧
    (∀ ops, applyAll fs paths = (ops, StepRes.fatal) →
      save_changes fs g cur orig sdata icons oicons = (ops, SaveOutcome.fatal) ∧
      ∃ p e, ops.getLast? = some (FsOp.createFile p) ∧
        fs (FsOp.createFile p) = some e) ∧
    (∀ ops r, applyAll fs paths = (ops, r) → r ≠ StepRes.ok →
      ∃ pre c post ops1 ops2, paths = pre ++ c :: post ∧
        applyAll fs pre = (ops1, StepRes.ok) ∧
        applyChangedPath fs c = (ops2, r) ∧ ops = ops1 ++ ops2) ∧
    (∀ ops b, applyAll fs paths = (ops, StepRes.ok) →
      check_for_shortcut_changes icons oicons = some b →
      ((b = false →
        save_changes fs g cur orig sdata icons oicons =
          (ops, SaveOutcome.returned (serializeChangedPaths paths))) ∧
       (∀ d, b = true → rewriteShortcuts (pathsIdMap paths) sdata = some d →
        save_changes fs g cur orig sdata icons oicons =
          (ops ++ [FsOp.writeShortcuts d],
           SaveOutcome.returned (serializeChangedPaths paths))))) := by
  refine ⟨?_, ?_, ?_, ?_⟩
  · intro ops m happ
    refine ⟨save_changes_err_eq fs g cur orig sdata icons oicons paths hf ops m happ, ?_⟩
    obtain ⟨pre, c, post, ops1, ops2, _, _, hc, hops⟩ :=
      applyAll_decomp fs paths ops (StepRes.err m) happ (by simp)
    obtain ⟨op, e, hlast, hfs, hm, hshape⟩ := applyChangedPath_err_shape fs c ops2 m hc
    refine ⟨op, e, ?_, hfs, hm, hshape⟩
    rw [hops, List.getLast?_append_of_ne_nil]
    · exact hlast
    · intro hnil
      rw [hnil] at hlast
      exact absurd hlast (by simp)
  · intro ops happ
    refine ⟨save_changes_fatal_eq fs g cur orig sdata icons oicons paths hf ops happ, ?_⟩
    obtain ⟨pre, c, post, ops1, ops2, _, _, hc, hops⟩ :=
      applyAll_decomp fs paths ops StepRes.fatal happ (by simp)
    obtain ⟨p, e, hlast, hfs⟩ := applyChangedPath_fatal_shape fs c ops2 hc
    refine ⟨p, e, ?_, hfs⟩
    rw [hops, List.getLast?_append_of_ne_nil]
    · exact hlast
    · intro hnil
      rw [hnil] at hlast
      exact absurd hlast (by simp)
  · intro ops r happ hne
    exact applyAll_decomp fs paths ops r happ hne
  · intro ops b happ hchk
    constructor
    · intro hb
      subst hb
      exact save_changes_ok_false_eq fs g cur orig sdata icons oicons paths hf ops happ hchk
    · intro d hb hrw
      subst hb
      exact save_changes_ok_true_eq fs g cur orig sdata icons oicons paths hf ops happ hchk d hrw

/-- Claim C3 counterexample: a failed `fs::File::create` does not make
`save_changes` return an error object — the `unwrap()` on line 280 makes
it panic, so there is no returned value at all for that failure class. -/
theorem save_create_failure_panics :
    (save_changes (fun op => match op with
        | FsOp.createFile _ => some "denied"
        | _ => none)
      "/g" [("1", [("Hero", "/a.png")])] [] JVal.other [] []).2 =
      SaveOutcome.fatal ∧
    createdPaths (save_changes (fun op => match op with
        | FsOp.createFile _ => some "denied"
        | _ => none)
      "/g" [("1", [("Hero", "/a.png")])] [] JVal.other [] []).1 =
      ["/g/1_hero.png"] := by
  constructor
  · decide
  · decide

/-- Witness for `save_changes_error_spec`: a failed copy returns the
formatted error object built from the oracle's message. -/
theorem save_changes_error_spec_witness :
    (filter_paths "/g" [("1", [("Hero", "/a.png")])] []).2 =
      some [⟨"1", "Hero", "", "/g/1_hero.png", "/a.png"⟩] ∧
    save_changes (fun op => match op with
        | FsOp.copyFile _ _ => some "nope"
        | _ => none)
      "/g" [("1", [("Hero", "/a.png")])] [] JVal.other [] [] =
      ([FsOp.createFile "/g/1_hero.png", FsOp.copyFile "/a.png" "/g/1_hero.png"],
       SaveOutcome.returned (errFmt "nope")) :=
  ⟨by decide,
   ((save_changes_error_spec (fun op => match op with
        | FsOp.copyFile _ _ => some "nope"
        | _ => none)
      "/g" [("1", [("Hero", "/a.png")])] [] JVal.other [] []
      [⟨"1", "Hero", "", "/g/1_hero.png", "/a.png"⟩] (by decide)).1
    [FsOp.createFile "/g/1_hero.png", FsOp.copyFile "/a.png" "/g/1_hero.png"]
    (errFmt "nope") rfl).1⟩

/-! ### Shortcut icon linkage -/

/-- Claim C1 is false on the code (code bug): the change-set map is keyed
`"730_Icon"` (line 255 uses the record's `gridType`, capital I) while the
shortcut loop looks up `"730_icon"` (line 309 hardcodes lowercase
`_icon`), so the shortcut with appid 730 keeps its old icon `/old.png`
instead of receiving the record's targetPath `/grids/730_icon.png` in the
data passed to the shortcuts writer. -/
theorem shortcut_icon_linkage_bug :
    (filter_paths "/grids" [("730", [("Icon", "/tmp/730.png")])] []).2 =
      some [⟨"730", "Icon", "", "/grids/730_icon.png", "/tmp/730.png"⟩] ∧
    ((writtenShortcutData (save_changes (fun _ => none) "/grids"
        [("730", [("Icon", "/tmp/730.png")])] []
        (JVal.obj [("shortcuts", JVal.obj [("0", JVal.obj
          [("appid", JVal.num 730), ("icon", JVal.str "/old.png")])])])
        [("0", JVal.str "/a")] [("0", JVal.str "/b")]).1).head?.bind
      (fun d => shortcutIconIn d "0")) = some "/old.png" ∧
    ("/old.png" : String) ≠ "/grids/730_icon.png" := by
  refine ⟨by decide, by decide, by decide⟩

/-! ### Change detection (which pairs produce records) -/

theorem keyVal_unique {β : Type} :
    ∀ {l : List (String × β)} {k : String} {x y : β},
      (l.map Prod.fst).Nodup → (k, x) ∈ l → (k, y) ∈ l → x = y
  | [], _, _, _, _, hx, _ => absurd hx (List.not_mem_nil _)
  | (k0, v0) :: tl, k, x, y, hnd, hx, hy => by
    rw [List.map_cons, List.nodup_cons] at hnd
    rcases List.mem_cons.mp hx with he1 | hx2
    · injection he1 with e1 e2
      subst e1
      subst e2
      rcases List.mem_cons.mp hy with he2 | hy2
      · injection he2 with _ e3
        exact e3.symm
      · exact absurd (List.mem_map_of_mem Prod.fst hy2) (by simpa using hnd.1)
    · rcases List.mem_cons.mp hy with he2 | hy2
      · injection he2 with e1 e2
        subst e1
        subst e2
        exact absurd (List.mem_map_of_mem Prod.fst hx2) (by simpa using hnd.1)
      · exact keyVal_unique hnd.2 hx2 hy2

theorem filterEntries_sound (gd a : String) (o : GridImageCache) :
    ∀ gm l, (filterEntries gd a o gm).2 = some l →
      ∀ r ∈ l, ∃ gt sp, (gt, sp) ∈ gm ∧ r.appId = a ∧ r.gridType = gt ∧
        sp ≠ (lookup2 o a gt).getD "" ∧ r.sourcePath = repSlash sp ∧
        (sp = "REMOVE" → r.targetPath = "REMOVE")
  | [], l, h, r, hr => by
    simp only [filterEntries] at h
    injection h with h
    subst h
    exact absurd hr (List.not_mem_nil _)
  | (gt0, sp0) :: rest, l, h, r, hr => by
    simp only [filterEntries] at h
    by_cases hskip : sp0 = (lookup2 o a gt0).getD ""
    · rw [if_pos hskip] at h
      obtain ⟨gt, sp, hm, hrest⟩ := filterEntries_sound gd a o rest l h r hr
      exact ⟨gt, sp, List.mem_cons_of_mem _ hm, hrest⟩
    · rw [if_neg hskip] at h
      rcases hmk : mkChangedPath gd a gt0 sp0 ((lookup2 o a gt0).getD "") with _ | c
      · rw [hmk] at h
        simp at h
      · rw [hmk] at h
        rcases hE : filterEntries gd a o rest with ⟨ops, rr⟩
        rw [hE] at h
        simp only at h
        rcases rr with _ | l2
        · simp at h
        · simp only [Option.map_some'] at h
          injection h with h
          subst h
          rcases List.mem_cons.mp hr with he | hr2
          · subst he
            obtain ⟨f1, f2, _, f4, f5⟩ :=
              mkChangedPath_fields gd a gt0 sp0 _ r hmk
            exact ⟨gt0, sp0, List.mem_cons_self _ _, f1, f2, hskip, f4, f5⟩
          · obtain ⟨gt, sp, hm, hrest⟩ :=
              filterEntries_sound gd a o rest l2 (by rw [hE]) r hr2
            exact ⟨gt, sp, List.mem_cons_of_mem _ hm, hrest⟩

theorem filterEntries_complete (gd a : String) (o : GridImageCache) :
    ∀ gm l gt sp, (filterEntries gd a o gm).2 = some l →
      (gt, sp) ∈ gm → sp ≠ (lookup2 o a gt).getD "" →
      ∃ r ∈ l, r.appId = a ∧ r.gridType = gt ∧ r.sourcePath = repSlash sp ∧
        (sp = "REMOVE" → r.targetPath = "REMOVE")
  | [], _, _, _, _, hm, _ => absurd hm (List.not_mem_nil _)
  | (gt0, sp0) :: rest, l, gt, sp, h, hm, hne => by
    simp only [filterEntries] at h
    by_cases hskip : sp0 = (lookup2 o a gt0).getD ""
    · rw [if_pos hskip] at h
      rcases List.mem_cons.mp hm with he | hm2
      · injection he with e1 e2
        subst e1
        subst e2
        exact absurd hskip hne
      · exact filterEntries_complete gd a o rest l gt sp h hm2 hne
    · rw [if_neg hskip] at h
      rcases hmk : mkChangedPath gd a gt0 sp0 ((lookup2 o a gt0).getD "") with _ | c
      · rw [hmk] at h
        simp at h
      · rw [hmk] at h
        rcases hE : filterEntries gd a o rest with ⟨ops, rr⟩
        rw [hE] at h
        simp only at h
        rcases rr with _ | l2
        · simp at h
        · simp only [Option.map_some'] at h
          injection h with h
          subst h
          rcases List.mem_cons.mp hm with he | hm2
          · injection he with e1 e2
            subst e1
            subst e2
            obtain ⟨f1, f2, _, f4, f5⟩ := mkChangedPath_fields gd a gt sp _ c hmk
            exact ⟨c, List.mem_cons_self _ _, f1, f2, f4, f5⟩
          · obtain ⟨r, hrm, hrest⟩ :=
              filterEntries_complete gd a o rest l2 gt sp (by rw [hE]) hm2 hne
            exact ⟨r, List.mem_cons_of_mem _ hrm, hrest⟩

theorem filterApps_sound (gd : String) (o : GridImageCache) :
    ∀ cur l, (filterApps gd o cur).2 = some l →
      ∀ r ∈ l, ∃ a gm, (a, gm) ∈ cur ∧ ∃ gt sp, (gt, sp) ∈ gm ∧
        r.appId = a ∧ r.gridType = gt ∧ sp ≠ (lookup2 o a gt).getD "" ∧
        r.sourcePath = repSlash sp ∧ (sp = "REMOVE" → r.targetPath = "REMOVE")
  | [], l, h, r, hr => by
    simp only [filterApps] at h
    injection h with h
    subst h
    exact absurd hr (List.not_mem_nil _)
  | (a0, gm0) :: rest, l, h, r, hr => by
    simp only [filterApps] at h
    rcases hE : filterEntries gd a0 o gm0 with ⟨ops1, r1⟩
    rw [hE] at h
    rcases r1 with _ | l1
    · simp at h
    · simp only at h
      rcases hA : filterApps gd o rest with ⟨ops2, r2⟩
      rw [hA] at h
      rcases r2 with _ | l2
      · simp at h
      · simp only at h
        injection h with h
        subst h
        rcases List.mem_append.mp hr with h1 | h2
        · obtain ⟨gt, sp, hm, f1, f2, f3, f4, f5⟩ :=
            filterEntries_sound gd a0 o gm0 l1 (by rw [hE]) r h1
          exact ⟨a0, gm0, List.mem_cons_self _ _, gt, sp, hm, f1, f2, f3, f4, f5⟩
        · obtain ⟨a, gm, ham, hrest⟩ := filterApps_sound gd o rest l2 (by rw [hA]) r h2
          exact ⟨a, gm, List.mem_cons_of_mem _ ham, hrest⟩

theorem filterApps_complete (gd : String) (o : GridImageCache) :
    ∀ cur l (a : String) gm gt sp, (filterApps gd o cur).2 = some l →
      (a, gm) ∈ cur → (gt, sp) ∈ gm → sp ≠ (lookup2 o a gt).getD "" →
      ∃ r ∈ l, r.appId = a ∧ r.gridType = gt ∧ r.sourcePath = repSlash sp ∧
        (sp = "REMOVE" → r.targetPath = "REMOVE")
  | [], _, _, _, _, _, _, ham, _, _ => absurd ham (List.not_mem_nil _)
  | (a0, gm0) :: rest, l, a, gm, gt, sp, h, ham, hgm, hne => by
    simp only [filterApps] at h
    rcases hE : filterEntries gd a0 o gm0 with ⟨ops1, r1⟩
    rw [hE] at h
    rcases r1 with _ | l1
    · simp at h
    · simp only at h
      rcases hA : filterApps gd o rest with ⟨ops2, r2⟩
      rw [hA] at h
      rcases r2 with _ | l2
      · simp at h
      · simp only at h
        injection h with h
        subst h
        rcases List.mem_cons.mp ham with he | ham2
        · injection he with e1 e2
          subst e1
          subst e2
          obtain ⟨r, hrm, hrest⟩ :=
            filterEntries_complete gd a o gm l1 gt sp (by rw [hE]) hgm hne
          exact ⟨r, List.mem_append.mpr (Or.inl hrm), hrest⟩
        · obtain ⟨r, hrm, hrest⟩ :=
            filterApps_complete gd o rest l2 a gm gt sp (by rw [hA]) ham2 hgm hne
          exact ⟨r, List.mem_append.mpr (Or.inr hrm), hrest⟩

/-- Claim C6: with the maps' HashMap key uniqueness as hypotheses, a
`(appId, gridType)` pair of the current map produces a record exactly when
its source path differs from the original entry (absent treated as `""`),
and a changed pair whose source is the `"REMOVE"` sentinel produces a
record with targetPath `"REMOVE"`. -/
theorem filter_paths_change_detection (gridsDir : String)
    (cur orig : GridImageCache) (l : List ChangedPath)
    (hsome : (filter_paths gridsDir cur orig).2 = some l)
    (hnd1 : (cur.map Prod.fst).Nodup)
    (hnd2 : ∀ p ∈ cur, (p.2.map Prod.fst).Nodup) :
    ∀ appid gm gt sp, (appid, gm) ∈ cur → (gt, sp) ∈ gm →
      (((∃ r ∈ l, r.appId = appid ∧ r.gridType = gt) ↔
        sp ≠ (lookup2 orig appid gt).getD "") ∧
       (sp ≠ (lookup2 orig appid gt).getD "" → sp = "REMOVE" →
        ∃ r ∈ l, r.appId = appid ∧ r.gridType = gt ∧
          r.targetPath = "REMOVE")) := by
  intro appid gm gt sp ham hgm
  constructor
  · constructor
    · rintro ⟨r, hrl, hra, hrg⟩
      obtain ⟨a, gm', ham', gt', sp', hgm', f1, f2, f3, _, _⟩ :=
        filterApps_sound gridsDir orig cur l hsome r hrl
      have ea : appid = a := hra.symm.trans f1
      subst ea
      have egm : gm = gm' := (keyVal_unique hnd1 ham' ham).symm
      subst egm
      have eg : gt = gt' := hrg.symm.trans f2
      subst eg
      have esp : sp = sp' := (keyVal_unique (hnd2 (appid, gm) ham) hgm' hgm).symm
      subst esp
      exact f3
    · intro hne
      obtain ⟨r, hrl, f1, f2, _, _⟩ :=
        filterApps_complete gridsDir orig cur l appid gm gt sp hsome ham hgm hne
      exact ⟨r, hrl, f1, f2⟩
  · intro hne hrm
    obtain ⟨r, hrl, f1, f2, _, f5⟩ :=
      filterApps_complete gridsDir orig cur l appid gm gt sp hsome ham hgm hne
    exact ⟨r, hrl, f1, f2, f5 hrm⟩

/-- Witness for `filter_paths_change_detection` at a one-app, one-type
current map. -/
theorem filter_paths_change_detection_witness :
    ((∃ r ∈ [(⟨"100", "Hero", "", "/g/100_hero.png", "/a.png"⟩ : ChangedPath)],
        r.appId = "100" ∧ r.gridType = "Hero") ↔
      "/a.png" ≠ (lookup2 [] "100" "Hero").getD "") ∧
    ("/a.png" ≠ (lookup2 [] "100" "Hero").getD "" → "/a.png" = "REMOVE" →
      ∃ r ∈ [(⟨"100", "Hero", "", "/g/100_hero.png", "/a.png"⟩ : ChangedPath)],
        r.appId = "100" ∧ r.gridType = "Hero" ∧ r.targetPath = "REMOVE") :=
  filter_paths_change_detection "/g" [("100", [("Hero", "/a.png")])] []
    [⟨"100", "Hero", "", "/g/100_hero.png", "/a.png"⟩]
    (by decide) (by decide) (by decide)
    "100" [("Hero", "/a.png")] "Hero" "/a.png" (by decide) (by decide)
